import Mathlib

/-!
Verification of the receipt-parsing pipeline of `spendly-backend`
(`backend/app.py`, class `EnhancedReceiptOCR`).

The Python text-processing functions `smart_parse_receipt`,
`extract_items_smart` and `calculate_confidence` are shallowly embedded
below.  Python strings are modelled as `List Char`; Python `re.search`
with the concrete patterns appearing in the source is modelled by a small
backtracking regular-expression engine (`mmatch` / `reSearch`) whose
alternation, greedy and lazy quantifier semantics follow Python's
leftmost-match backtracking order.  Python's `int` arithmetic is modelled
with `Nat`/`Int`; the float literal `0.15` in the tolerance check and the
confidence weights are modelled exactly as rationals.
-/

/-- Python `\s` / `str.strip` whitespace (ASCII range, as used here). -/
def pyIsSpace (c : Char) : Bool :=
  c = ' ' || c = '\t' || c = '\n' || c = '\r' || c = '\x0b' || c = '\x0c'

/-- Python `\w` word characters (ASCII approximation: alphanumeric or underscore). -/
def isWordChar (c : Char) : Bool :=
  c.isAlphanum || c = '_'

/-- Python `str.strip()` on a character list. -/
def myTrim (l : List Char) : List Char :=
  ((l.dropWhile pyIsSpace).reverse.dropWhile pyIsSpace).reverse

/-- Python `str.lower()` (ASCII). -/
def myLower (l : List Char) : List Char :=
  l.map Char.toLower

/-- Python `re.sub(r'[^\d]', '', s)`: keep only digits. -/
def digitsOnly (l : List Char) : List Char :=
  l.filter Char.isDigit

/-- Python `int(s)` on a non-empty digit string. -/
def toNatDigits (l : List Char) : Nat :=
  l.foldl (fun acc c => 10 * acc + (c.toNat - '0'.toNat)) 0

/-- `int(re.sub(r'[^\d]', '', s))`: `none` models the `ValueError` raised by
`int('')` when the capture contains no digit. -/
def parseAmount (l : List Char) : Option Nat :=
  let d := digitsOnly l
  if d = [] then none else some (toNatDigits d)

/-- Python `str.zfill(2)`. -/
def zfill2 (l : List Char) : List Char :=
  if l.length < 2 then List.replicate (2 - l.length) '0' ++ l else l

/-- `text.split('\n')` on a character list. -/
def splitOnNl : List Char → List (List Char)
  | [] => [[]]
  | c :: rest =>
    if c = '\n' then [] :: splitOnNl rest
    else
      match splitOnNl rest with
      | l :: ls => (c :: l) :: ls
      | [] => [[c]]

/-- `[line.strip() for line in text.split('\n') if line.strip()]`. -/
def splitLines (s : List Char) : List (List Char) :=
  ((splitOnNl s).map myTrim).filter (fun l => !l.isEmpty)

/-! ## A small backtracking regex engine (Python `re` semantics) -/

/-- Capture groups collected during a match: group index paired with the
captured substring. -/
abbrev Caps := List (Nat × List Char)

/-- Regular expressions, restricted to the constructs appearing in the
source's patterns.  Unbounded repetition only ranges over single-character
classes, which is all the source patterns use. -/
inductive RE where
  | eps : RE
  | cls : (Char → Bool) → RE
  | seq : RE → RE → RE
  | alt : RE → RE → RE
  | opt : RE → RE
  | grp : Nat → RE → RE
  | starCls : (Char → Bool) → RE
  | lazyStarCls : (Char → Bool) → RE
  | eos : RE

/-- Greedy `X*` over a character class: consume as much as possible,
backtracking one character at a time (Python's greedy order). -/
def starGreedy (p : Char → Bool) : List Char → (List Char → Option Caps) → Option Caps
  | [], k => k []
  | c :: s, k => if p c then (starGreedy p s k) <|> k (c :: s) else k (c :: s)

/-- Lazy `X*?` over a character class: consume as little as possible,
extending one character at a time (Python's lazy order). -/
def starLazy (p : Char → Bool) : List Char → (List Char → Option Caps) → Option Caps
  | [], k => k []
  | c :: s, k => k (c :: s) <|> (if p c then starLazy p s k else none)

/-- The substring consumed between entering a group with remaining input `s`
and leaving it with remaining input `s'` (a suffix of `s`). -/
def consumed (s s' : List Char) : List Char :=
  s.take (s.length - s'.length)

/-- CPS backtracking matcher.  `mmatch r s caps k` tries to match `r`
against a prefix of `s` given captures `caps`, calling `k` on the remaining
input and updated captures; alternatives are tried in Python's order
(left alternative first, greedy longest-first, lazy shortest-first). -/
def mmatch : RE → List Char → Caps → (List Char → Caps → Option Caps) → Option Caps
  | .eps, s, caps, k => k s caps
  | .cls p, s, caps, k =>
    match s with
    | [] => none
    | c :: s' => if p c then k s' caps else none
  | .seq a b, s, caps, k => mmatch a s caps (fun s' caps' => mmatch b s' caps' k)
  | .alt a b, s, caps, k => (mmatch a s caps k) <|> (mmatch b s caps k)
  | .opt r, s, caps, k => (mmatch r s caps k) <|> k s caps
  | .grp n r, s, caps, k => mmatch r s caps (fun s' caps' => k s' ((n, consumed s s') :: caps'))
  | .starCls p, s, caps, k => starGreedy p s (fun s' => k s' caps)
  | .lazyStarCls p, s, caps, k => starLazy p s (fun s' => k s' caps)
  | .eos, s, caps, k =>
    match s with
    | [] => k [] caps
    | _ :: _ => none

/-- Match anchored at the current position (used for the `^`-anchored item
patterns, and as one step of `reSearch`). -/
def matchHere (r : RE) (s : List Char) : Option Caps :=
  mmatch r s [] (fun _ caps => some caps)

/-- Python `re.search`: try to match at each start position, leftmost wins. -/
def reSearch (r : RE) : List Char → Option Caps
  | [] => matchHere r []
  | c :: s =>
    match matchHere r (c :: s) with
    | some caps => some caps
    | none => reSearch r s

/-- `match.group(n)` (all groups in the source patterns are mandatory, so a
missing entry cannot occur on a successful match). -/
def getGroup (caps : Caps) (n : Nat) : List Char :=
  ((caps.find? (fun x => x.1 = n)).map (fun x => x.2)).getD []

/-! ### Pattern constructors -/

/-- Case-insensitive literal character (all the source regexes are compiled
with `re.IGNORECASE`). -/
def chrCls (c : Char) : RE :=
  .cls (fun x => x.toLower = c.toLower)

/-- Case-insensitive literal string. -/
def strRE (s : String) : RE :=
  (s.data.map chrCls).foldr RE.seq .eps

/-- Sequencing of a pattern list. -/
def seqList (l : List RE) : RE :=
  l.foldr RE.seq .eps

/-- Alternation, tried left to right. -/
def altList : List RE → RE
  | [] => .eps
  | [r] => r
  | r :: rs => .alt r (altList rs)

def digitC : RE := .cls Char.isDigit

/-- `\d+` (greedy). -/
def digitsPlus : RE := .seq digitC (.starCls Char.isDigit)

/-- `\d{1,2}` (greedy: two digits first, then one). -/
def d12 : RE := .seq digitC (.opt digitC)

/-- `\d{2,4}` (greedy: four digits first, down to two). -/
def d24 : RE := .seq digitC (.seq digitC (.opt (.seq digitC (.opt digitC))))

/-- `[\d\.,]` amount characters. -/
def amtChar (c : Char) : Bool := c.isDigit || c = '.' || c = ','

/-- `[\d\.,]+` (greedy). -/
def amtPlus : RE := .seq (.cls amtChar) (.starCls amtChar)

/-- `[\d\.,]{4,}` (greedy). -/
def amt4Plus : RE := seqList [.cls amtChar, .cls amtChar, .cls amtChar, .cls amtChar, .starCls amtChar]

/-- `\s*` (greedy). -/
def wsStar : RE := .starCls pyIsSpace

/-- `\s+` (greedy). -/
def wsPlus : RE := .seq (.cls pyIsSpace) (.starCls pyIsSpace)

/-- `(.+?)` — lazy one-or-more of any character except newline. -/
def lazyDotPlus : RE := .seq (.cls (fun c => c ≠ '\n')) (.lazyStarCls (fun c => c ≠ '\n'))

/-- `.*?` — lazy star of any character except newline. -/
def lazyDotStar : RE := .lazyStarCls (fun c => c ≠ '\n')

/-- `[\/\-\.]` date separators. -/
def dateSep : RE := .cls (fun c => c = '/' || c = '-' || c = '.')

/-- `(?:RP\.?|IDR|Rp)` currency marker (required form). -/
def currReq : RE := altList [.seq (strRE "RP") (.opt (chrCls '.')), strRE "IDR", strRE "Rp"]

/-- `(?:RP\.?|IDR|Rp)?` currency marker (optional form). -/
def currOpt : RE := .opt currReq

/-! ## The source's regex patterns (`app.py`) -/

/-- `date_patterns[0]`: `(\d{1,2})[\/\-\.](\d{1,2})[\/\-\.](\d{2,4})`. -/
def datePat0 : RE :=
  seqList [.grp 1 d12, dateSep, .grp 2 d12, dateSep, .grp 3 d24]

/-- `date_patterns[1]`: `(\d{2,4})[\/\-\.](\d{1,2})[\/\-\.](\d{1,2})`. -/
def datePat1 : RE :=
  seqList [.grp 1 d24, dateSep, .grp 2 d12, dateSep, .grp 3 d12]

/-- The month alternation `(Jan|Feb|Mar|Apr|May|Jun|Jul|Aug|Sep|Oct|Nov|Dec)`. -/
def monthRE : RE :=
  altList (["Jan", "Feb", "Mar", "Apr", "May", "Jun",
            "Jul", "Aug", "Sep", "Oct", "Nov", "Dec"].map strRE)

/-- `date_patterns[2]`: `(\d{1,2})\s+(Jan|...|Dec)\s+(\d{2,4})`. -/
def datePat2 : RE :=
  seqList [.grp 1 d12, wsPlus, .grp 2 monthRE, wsPlus, .grp 3 d24]

def date_patterns : List RE := [datePat0, datePat1, datePat2]

/-- The total keyword alternation
`(?:TOTAL|GRAND\s*TOTAL|SUB\s*TOTAL|HARGA\s*JUAL)`. -/
def totalKw : RE :=
  altList [strRE "TOTAL",
           seqList [strRE "GRAND", wsStar, strRE "TOTAL"],
           seqList [strRE "SUB", wsStar, strRE "TOTAL"],
           seqList [strRE "HARGA", wsStar, strRE "JUAL"]]

/-- `total_patterns[0]`:
`(?:TOTAL|GRAND\s*TOTAL|SUB\s*TOTAL|HARGA\s*JUAL)\s*:?\s*(?:RP\.?|IDR|Rp)?\s*([\d\.,]+)`. -/
def totalPat0 : RE :=
  seqList [totalKw, wsStar, .opt (chrCls ':'), wsStar, currOpt, wsStar, .grp 1 amtPlus]

/-- `total_patterns[1]`: `(?:RP\.?|IDR|Rp)\s*([\d\.,]+)(?:\s*(?:TOTAL|JUMLAH))?`. -/
def totalPat1 : RE :=
  seqList [currReq, wsStar, .grp 1 amtPlus,
           .opt (seqList [wsStar, altList [strRE "TOTAL", strRE "JUMLAH"]])]

/-- `total_patterns[2]`: `TOTAL.*?([\d\.,]{4,})`. -/
def totalPat2 : RE :=
  seqList [strRE "TOTAL", lazyDotStar, .grp 1 amt4Plus]

/-- `total_patterns[3]`: `([\d\.,]{4,})\s*(?:TOTAL|JUMLAH)`. -/
def totalPat3 : RE :=
  seqList [.grp 1 amt4Plus, wsStar, altList [strRE "TOTAL", strRE "JUMLAH"]]

def total_patterns : List RE := [totalPat0, totalPat1, totalPat2, totalPat3]

/-- Item pattern 1:
`^(.+?)\s+(\d+)\s+(?:RP\.?|IDR|Rp)?\s*([\d\.,]+)\s+(?:RP\.?|IDR|Rp)?\s*([\d\.,]+)$`. -/
def itemPat1 : RE :=
  seqList [.grp 1 lazyDotPlus, wsPlus, .grp 2 digitsPlus, wsPlus,
           currOpt, wsStar, .grp 3 amtPlus, wsPlus, currOpt, wsStar, .grp 4 amtPlus, .eos]

/-- Item pattern 2: `^(.+?)\s+(\d+)\s*[xX*]\s*(?:RP\.?|IDR|Rp)?\s*([\d\.,]+)`. -/
def itemPat2 : RE :=
  seqList [.grp 1 lazyDotPlus, wsPlus, .grp 2 digitsPlus, wsStar,
           .cls (fun c => c = 'x' || c = 'X' || c = '*'), wsStar, currOpt, wsStar, .grp 3 amtPlus]

/-- Item pattern 3: `^(.+?)\s+(?:RP\.?|IDR|Rp)?\s*([\d\.,]{4,})$`. -/
def itemPat3 : RE :=
  seqList [.grp 1 lazyDotPlus, wsPlus, currOpt, wsStar, .grp 2 amt4Plus, .eos]

/-- Item pattern 4: `^(.+?)\s*\((\d+)\)\s*(?:RP\.?|IDR|Rp)?\s*([\d\.,]+)`. -/
def itemPat4 : RE :=
  seqList [.grp 1 lazyDotPlus, wsStar, chrCls '(', .grp 2 digitsPlus, chrCls ')',
           wsStar, currOpt, wsStar, .grp 3 amtPlus]

/-- The item pattern list, in the source's order. -/
def item_patterns : List RE := [itemPat1, itemPat2, itemPat3, itemPat4]

/-- The header/footer keyword alternation
`(?:NAMA|ITEM|QTY|HARGA|TOTAL|GRAND|SUB|KASIR|TANGGAL|NO\.)`. -/
def headerKw : RE :=
  altList (["NAMA", "ITEM", "QTY", "HARGA", "TOTAL",
            "GRAND", "SUB", "KASIR", "TANGGAL", "NO."].map strRE)

/-- `re.search` of the header keyword pattern succeeds on the line. -/
def hasHeaderKeyword (line : List Char) : Bool :=
  (reSearch headerKw line).isSome

/-! ## Data model -/

/-- An item record as produced by `extract_items_smart`
(`{'name': ..., 'quantity': .., 'price': ..}`). -/
structure LineItem where
  name : String
  quantity : Nat
  price : Nat
deriving DecidableEq, Repr

/-- The `parsed_data` record of `smart_parse_receipt`. -/
structure ParsedReceipt where
  merchantName : String
  date : String
  items : List LineItem
  total : Nat
  confidence : ℚ
  raw_text : String

/-! ## Line-item extraction (`extract_items_smart`) -/

/-- The `len(groups) == 4` branch (pattern `Item Qty Price Total`): the
result is `none` when `int` raises (capture without digits), `some none`
when the arithmetic validation rejects the line, and `some (some item)`
when the item is accepted.  The check
`abs(quantity * unit_price - total_price) <= total_price * 0.15` is
modelled with `0.15` as the exact rational `3/20`, written with cleared
denominators over the integers (`tolerance_q_iff` below shows this is the
same relation as the rational-valued `≤ total_price * 0.15`). -/
def item4g (g1 g2 g3 g4 : List Char) : Option (Option LineItem) :=
  let name := myTrim g1
  let quantity := toNatDigits g2
  match parseAmount g3, parseAmount g4 with
  | some unit_price, some total_price =>
    some (if 0 < unit_price ∧
            100 * ((quantity : ℤ) * unit_price - total_price).natAbs ≤ 15 * total_price
          then some ⟨String.mk name, quantity, unit_price⟩ else none)
  | _, _ => none

/-- The cleared-denominator form of the 15% tolerance agrees with the
rational form `a ≤ t * 0.15`. -/
theorem tolerance_q_iff (a t : Nat) :
    ((a : ℚ) ≤ (t : ℚ) * 0.15) ↔ 100 * a ≤ 15 * t := by
  rw [show ((100 * a ≤ 15 * t) ↔ ((100 * a : Nat) : ℚ) ≤ ((15 * t : Nat) : ℚ)) from Nat.cast_le.symm]
  push_cast
  constructor <;> intro h <;> nlinarith

/-- The `len(groups) == 3` branch (patterns `Item Qty x Price` and
`Item (Qty) Price`): accepted if `price > 0 and quantity > 0`. -/
def item3g (g1 g2 g3 : List Char) : Option (Option LineItem) :=
  let name := myTrim g1
  let quantity := toNatDigits g2
  match parseAmount g3 with
  | some price =>
    some (if 0 < price ∧ 0 < quantity then some ⟨String.mk name, quantity, price⟩ else none)
  | none => none

/-- The `len(groups) == 2` branch (pattern `Item Total`): accepted if
`price > 1000 and len(name) > 2`, with quantity fixed to 1. -/
def item2g (g1 g2 : List Char) : Option (Option LineItem) :=
  let name := myTrim g1
  match parseAmount g2 with
  | some price =>
    some (if 1000 < price ∧ 2 < name.length then some ⟨String.mk name, 1, price⟩ else none)
  | none => none

/-- Dispatch on `len(groups)` exactly as the `if/elif` chain does; a group
count other than 4/3/2 falls through to the bare `break` (no item, no
exception). -/
def interpretItemGroups (caps : Caps) : Option (Option LineItem) :=
  if caps.length = 4 then item4g (getGroup caps 1) (getGroup caps 2) (getGroup caps 3) (getGroup caps 4)
  else if caps.length = 3 then item3g (getGroup caps 1) (getGroup caps 2) (getGroup caps 3)
  else if caps.length = 2 then item2g (getGroup caps 1) (getGroup caps 2)
  else some none

/-- The inner `for pattern in patterns` loop of `extract_items_smart`: the
first matching pattern is interpreted; an exception (`none`) falls through
to the next pattern (`continue`), otherwise the loop breaks with the
branch's outcome.  All four item patterns are `^`-anchored, so matching is
at position 0. -/
def itemLineScan : List RE → List Char → Option LineItem
  | [], _ => none
  | p :: ps, line =>
    match matchHere p line with
    | none => itemLineScan ps line
    | some caps =>
      match interpretItemGroups caps with
      | none => itemLineScan ps line
      | some r => r

/-- One line of the outer loop: header/footer keyword lines are skipped. -/
def collectItems : List (List Char) → List LineItem
  | [] => []
  | line :: rest =>
    if hasHeaderKeyword line then collectItems rest
    else
      match itemLineScan item_patterns line with
      | some it => it :: collectItems rest
      | none => collectItems rest

/-- The final duplicate-removal / filtering pass: keep items with non-empty
name and positive price, deduplicated by `(name.lower().strip(), price)`,
first occurrence winning. -/
def dedupItems : List LineItem → List (List Char × Nat) → List LineItem
  | [], _ => []
  | it :: rest, seen =>
    if it.name ≠ "" ∧ 0 < it.price then
      let key := (myTrim (myLower it.name.data), it.price)
      if seen.contains key then dedupItems rest seen
      else it :: dedupItems rest (key :: seen)
    else dedupItems rest seen

/-- `extract_items_smart(lines)`. -/
def extract_items_smart (lines : List (List Char)) : List LineItem :=
  dedupItems (collectItems lines) []

/-! ## Date extraction (inside `smart_parse_receipt`) -/

/-- First matching date pattern on a line, with its index (the inner
`for pattern in date_patterns` loop; the first match breaks this loop). -/
def firstMatchIdx : Nat → List RE → List Char → Option (Nat × Caps)
  | _, [], _ => none
  | i, p :: ps, line =>
    match reSearch p line with
    | some caps => some (i, caps)
    | none => firstMatchIdx (i + 1) ps line

/-- The assignment a line makes to `parsed_data['date']`, if any: pattern 0
(`DD/MM/YYYY`) expands a two-digit year with prefix `"20"`; pattern 1
(`YYYY/MM/DD`) uses its year group verbatim; pattern 2 has no `if` branch
in the source, so its match assigns nothing. -/
def dateLineValue (line : List Char) : Option String :=
  match firstMatchIdx 0 date_patterns line with
  | some (0, caps) =>
    let day := getGroup caps 1
    let month := getGroup caps 2
    let year := getGroup caps 3
    let year := if year.length = 2 then '2' :: '0' :: year else year
    some (String.mk (year ++ '-' :: zfill2 month ++ '-' :: zfill2 day))
  | some (1, caps) =>
    let year := getGroup caps 1
    let month := getGroup caps 2
    let day := getGroup caps 3
    some (String.mk (year ++ '-' :: zfill2 month ++ '-' :: zfill2 day))
  | _ => none

/-- One step of the outer date loop: the loop body only breaks the inner
pattern loop, so each line with an assigning match overwrites the current
value and scanning continues with the next line. -/
def dateUpdate (cur : String) (line : List Char) : String :=
  (dateLineValue line).getD cur

/-- The full date scan: a left fold of `dateUpdate` starting from the
default (`datetime.now().strftime('%Y-%m-%d')`, passed in as `today`). -/
def dateScan (lines : List (List Char)) (today : String) : String :=
  lines.foldl dateUpdate today

/-! ## Total extraction (inside `smart_parse_receipt`) -/

/-- The inner `for pattern in total_patterns` loop: the first pattern whose
match's digit-only extraction has at least 3 digits assigns the total and
breaks; a match with fewer digits does not break, so later patterns are
still tried. -/
def totalLineScan : List RE → List Char → Option Nat
  | [], _ => none
  | p :: ps, line =>
    match reSearch p line with
    | none => totalLineScan ps line
    | some caps =>
      let amount := digitsOnly (getGroup caps 1)
      if 3 ≤ amount.length then some (toNatDigits amount) else totalLineScan ps line

/-- The outer total loop: after each line, scanning stops as soon as
`parsed_data['total'] > 0`. -/
def totalScan : List (List Char) → Nat → Nat
  | [], t => t
  | line :: rest, t =>
    let t' := match totalLineScan total_patterns line with
              | some v => v
              | none => t
    if 0 < t' then t' else totalScan rest t'

/-! ## Merchant-name extraction (inside `smart_parse_receipt`) -/

/-- `re.search(r'\d{3,}', line)`: the line has a run of 3 consecutive digits. -/
def hasDigitRun3 : List Char → Bool
  | c1 :: c2 :: c3 :: rest =>
    (c1.isDigit && c2.isDigit && c3.isDigit) || hasDigitRun3 (c2 :: c3 :: rest)
  | _ => false

/-- Split on whitespace runs, dropping empty pieces (Python `str.split()`). -/
def splitWs (l : List Char) : List (List Char) :=
  ((l.map (fun c => if pyIsSpace c then '\n' else c)).foldr
    (fun c acc =>
      match acc with
      | [] => [[c]]
      | w :: ws => if c = '\n' then [] :: w :: ws else (c :: w) :: ws) []).filter
    (fun w => !w.isEmpty)

/-- `re.sub(r'[^\w\s&.-]', ' ', line)` followed by `' '.join(cleaned.split())`. -/
def cleanMerchant (line : List Char) : List Char :=
  let replaced := line.map (fun c =>
    if isWordChar c || pyIsSpace c || c = '&' || c = '.' || c = '-' then c else ' ')
  List.intercalate [' '] (splitWs replaced)

/-- The merchant loop over `lines[:5]`: the first line without a 3-digit
run, with length strictly between 3 and 50, whose cleaned form still has
length above 3, wins. -/
def extractMerchant : List (List Char) → String
  | [] => ""
  | line :: rest =>
    if !hasDigitRun3 line ∧ 3 < line.length ∧ line.length < 50 then
      let cleaned := cleanMerchant line
      if 3 < cleaned.length then String.mk cleaned else extractMerchant rest
    else extractMerchant rest

/-! ## Confidence and the full parse -/

/-- `calculate_confidence(parsed_data, raw_text)`: sequential accumulation
of the four weights, capped by `min(score, 1.0)`.  The float weights are
modelled exactly as rationals. -/
def calculate_confidence (pd : ParsedReceipt) (raw_text : String) : ℚ :=
  let score : ℚ := 0
  let score := if pd.merchantName ≠ "" then score + 0.25 else score
  let score := if 0 < pd.total then score + 0.35 else score
  let score := if pd.items ≠ [] ∧ pd.items.any (fun it => it.name ≠ "") then score + 0.25 else score
  let score := if 50 < raw_text.length then score + 0.15 else score
  min score 1

/-- `smart_parse_receipt(text)`.  The current-date default
`datetime.now().strftime('%Y-%m-%d')` is passed in as `today`. -/
def smart_parse_receipt (text today : String) : ParsedReceipt :=
  let lines := splitLines text.data
  let merchantName := extractMerchant (lines.take 5)
  let date := dateScan lines today
  let total := totalScan lines 0
  let items0 := extract_items_smart lines
  let items := if items0 = [] then [⟨"", 1, 0⟩] else items0
  let pd : ParsedReceipt := ⟨merchantName, date, items, total, 0, text⟩
  { pd with confidence := calculate_confidence pd text }

/-- First total pattern (in the source's order) that merely *matches* a
line, with its first capture group — regardless of whether the digit-only
extraction is long enough to be accepted. -/
def firstTotalGroup : List RE → List Char → Option (List Char)
  | [], _ => none
  | p :: ps, line =>
    match reSearch p line with
    | some caps => some (getGroup caps 1)
    | none => firstTotalGroup ps line

/-- Gregorian calendar validity of a (year, month, day) triple. -/
def daysInMonth (y m : Nat) : Nat :=
  if m = 2 then (if (y % 4 = 0 ∧ y % 100 ≠ 0) ∨ y % 400 = 0 then 29 else 28)
  else if m = 4 ∨ m = 6 ∨ m = 9 ∨ m = 11 then 30 else 31

/-- A (year, month, day) triple is a valid calendar date. -/
def isValidCalendarDate (y m d : Nat) : Bool :=
  decide (1 ≤ m) && decide (m ≤ 12) && decide (1 ≤ d) && decide (d ≤ daysInMonth y m)

/-! ## Claims -/

/-- Claim C1: for every input text, the `items` field of the parsed receipt
is non-empty, and if no line yields an accepted item then it is exactly the
single placeholder item with empty name, quantity 1 and price 0. -/
theorem smart_parse_items_nonempty (text today : String) :
    (smart_parse_receipt text today).items ≠ [] ∧
    (collectItems (splitLines text.data) = [] →
      (smart_parse_receipt text today).items = [⟨"", 1, 0⟩]) := by
  have h : (smart_parse_receipt text today).items =
      (if extract_items_smart (splitLines text.data) = [] then [(⟨"", 1, 0⟩ : LineItem)]
       else extract_items_smart (splitLines text.data)) := rfl
  constructor
  · rw [h]
    split_ifs with hs
    · simp
    · exact hs
  · intro hc
    have he : extract_items_smart (splitLines text.data) = [] := by
      unfold extract_items_smart
      rw [hc]
      rfl
    rw [h, if_pos he]

/-- Witness for C1 at the empty text. -/
theorem smart_parse_items_nonempty_witness :
    (smart_parse_receipt "" "1970-01-01").items = [⟨"", 1, 0⟩] :=
  (smart_parse_items_nonempty "" "1970-01-01").2 rfl

/-- Claim C2: `calculate_confidence` is exactly the capped weighted sum of
the four completeness predicates, always lies in `[0, 1]`, and equals 1
when all four predicates hold. -/
theorem calculate_confidence_formula (pd : ParsedReceipt) (raw_text : String) :
    calculate_confidence pd raw_text =
      min ((if pd.merchantName ≠ "" then (0.25 : ℚ) else 0) +
           (if 0 < pd.total then (0.35 : ℚ) else 0) +
           (if pd.items ≠ [] ∧ pd.items.any (fun it => it.name ≠ "") then (0.25 : ℚ) else 0) +
           (if 50 < raw_text.length then (0.15 : ℚ) else 0)) 1 ∧
    0 ≤ calculate_confidence pd raw_text ∧
    calculate_confidence pd raw_text ≤ 1 ∧
    ((pd.merchantName ≠ "" ∧ 0 < pd.total ∧ pd.items.any (fun it => it.name ≠ "") = true ∧
        50 < raw_text.length) →
      calculate_confidence pd raw_text = 1) := by
  refine ⟨?_, ?_, ?_, ?_⟩
  · simp only [calculate_confidence]
    split_ifs <;> norm_num
  · simp only [calculate_confidence]
    split_ifs <;> norm_num
  · simp only [calculate_confidence]
    split_ifs <;> norm_num
  · rintro ⟨h1, h2, h3, h4⟩
    have hne : pd.items ≠ [] := by
      intro he
      rw [he] at h3
      simp at h3
    simp only [calculate_confidence]
    rw [if_pos h1, if_pos h2, if_pos (And.intro hne h3), if_pos h4]
    norm_num

/-- Witness for C2: all four predicates hold, so the confidence is 1. -/
theorem calculate_confidence_formula_witness :
    calculate_confidence ⟨"Toko", "2024-01-01", [⟨"Kopi", 1, 5⟩], 100, 0, ""⟩
      "Toko Maju Jaya 01/02/2024 Kopi 2 x 15000 TOTAL RP 30000" = 1 :=
  (calculate_confidence_formula _ _).2.2.2 ⟨by decide, by decide, by decide, by decide⟩

/-- Claim C3 (counterexample): the date loop's `break` only leaves the
inner pattern loop, so a date match on a later line overwrites the earlier
one — the text "01/02/2024\n03/04/2023" yields the second line's date,
although on its own the first line yields "2024-02-01". -/
theorem date_first_match_counterexample :
    (smart_parse_receipt "01/02/2024\n03/04/2023" "1970-01-01").date = "2023-04-03" ∧
    (smart_parse_receipt "01/02/2024" "1970-01-01").date = "2024-02-01" := by
  exact ⟨by decide, by decide⟩

/-- Claim C3 (amended): within a line the three patterns are tried in order
and the first match breaks only the pattern loop; the scan over lines
continues, so the last line whose first-matching pattern makes an
assignment determines the extracted date. -/
theorem date_last_match_wins (prev : List (List Char)) (line : List Char) (today v : String)
    (h : dateLineValue line = some v) :
    dateScan (prev ++ [line]) today = v := by
  unfold dateScan
  rw [List.foldl_append]
  simp [dateUpdate, h]

/-- Witness for the amended C3: the second line's match overrides. -/
theorem date_last_match_wins_witness :
    dateScan (["01/02/2024".data] ++ ["03/04/2023".data]) "1970-01-01" = "2023-04-03" :=
  date_last_match_wins ["01/02/2024".data] "03/04/2023".data "1970-01-01" "2023-04-03" (by decide)

/-- Claim C4 (counterexample): "24/5/9" is matched by the second
(`YYYY/MM/DD`) date pattern, whose branch performs no two-digit-year
expansion, so the result is "24-05-09", not "2009-05-24". -/
theorem two_digit_year_counterexample :
    (smart_parse_receipt "24/5/9" "1970-01-01").date = "24-05-09" ∧
    ("24-05-09" : String) ≠ "2009-05-24" := by
  exact ⟨by decide, by decide⟩

/-- Claim C4 (amended): the `"20"` prefix expansion of a two-digit year
applies only to the first (`DD/MM/YYYY`) date pattern; the second
(`YYYY/MM/DD`) pattern emits its year group verbatim.  "12/05/2024" gives
"2024-05-12"; "1/2/24" (first pattern, two-digit year) gives "2024-02-01";
"24/5/9" matches the second pattern and gives "24-05-09". -/
theorem date_year_normalization_amended :
    (smart_parse_receipt "12/05/2024" "1970-01-01").date = "2024-05-12" ∧
    (smart_parse_receipt "1/2/24" "1970-01-01").date = "2024-02-01" ∧
    (smart_parse_receipt "24/5/9" "1970-01-01").date = "24-05-09" := by
  exact ⟨by decide, by decide, by decide⟩

/-- Claim C5: the third date pattern (`D Mon YYYY`) matches the line
"5 Jan 2024" first among the three patterns, but the source's `if/elif`
covers only the first two patterns, so the match assigns nothing and the
date keeps its current-date default. -/
theorem date_pattern3_ignored (today : String) :
    (smart_parse_receipt "5 Jan 2024" today).date = today ∧
    (firstMatchIdx 0 date_patterns "5 Jan 2024".data).map (fun x => x.1) = some 2 := by
  exact ⟨rfl, by decide⟩

/-- Claim C6 (counterexample): the code tries the bare `name price` pattern
(its pattern 3) before the parenthesized-quantity pattern (its pattern 4),
so "Teh (2) 5000" is consumed as a 2-group match with name "Teh (2)" and
quantity 1 — not as a parenthesized-quantity item with quantity 2. -/
theorem paren_qty_counterexample :
    extract_items_smart ["Teh (2) 5000".data] = [⟨"Teh (2)", 1, 5000⟩] ∧
    extract_items_smart ["Teh (2) 5000".data] ≠ [⟨"Teh", 2, 5000⟩] := by
  exact ⟨by decide, by decide⟩

/-- Claim C6 (amended): the four grammars are tried per line in the
source's order — 4-group, qty-x-price, bare name-price, parenthesized
quantity — with the first match winning; "Teh (2) 5000" is consumed by the
bare name-price grammar (quantity 1), and the parenthesized grammar only
applies when the bare grammar fails, as on "Teh (2) 500" (price shorter
than 4 digits). -/
theorem item_pattern_order_amended :
    item_patterns = [itemPat1, itemPat2, itemPat3, itemPat4] ∧
    extract_items_smart ["Teh (2) 5000".data] = [⟨"Teh (2)", 1, 5000⟩] ∧
    extract_items_smart ["Teh (2) 500".data] = [⟨"Teh", 2, 500⟩] := by
  exact ⟨rfl, by decide, by decide⟩

/-- Claim C10: the numeric date patterns perform no calendar validation —
the line "99/99/2024" produces the string "2024-99-99" by zero-padding and
rearrangement alone, and (2024, 99, 99) is not a valid calendar date. -/
theorem date_no_calendar_validation (today : String) :
    (smart_parse_receipt "99/99/2024" today).date = "2024-99-99" ∧
    isValidCalendarDate 2024 99 99 = false := by
  exact ⟨rfl, by decide⟩

/-- Claim C7: a line matched by the 4-group grammar is accepted iff the
unit price is positive and `|quantity * unitPrice - lineTotal|` is within
15% of the line total; "Kopi 2 1000 2100" is accepted, "Kopi 2 1000 2500"
is rejected. -/
theorem item4_tolerance :
    (∀ g1 g2 g3 g4 u t, parseAmount g3 = some u → parseAmount g4 = some t →
      ((∃ it, item4g g1 g2 g3 g4 = some (some it)) ↔
        (0 < u ∧ ((((toNatDigits g2 : ℤ) * u - t).natAbs : ℚ) ≤ (t : ℚ) * 0.15)))) ∧
    extract_items_smart ["Kopi 2 1000 2100".data] = [⟨"Kopi", 2, 1000⟩] ∧
    extract_items_smart ["Kopi 2 1000 2500".data] = [] := by
  refine ⟨?_, by decide, by decide⟩
  intro g1 g2 g3 g4 u t h3 h4
  simp only [item4g, h3, h4]
  split_ifs with hc
  · exact ⟨fun _ => ⟨hc.1, (tolerance_q_iff _ _).mpr hc.2⟩, fun _ => ⟨_, rfl⟩⟩
  · constructor
    · rintro ⟨it, hit⟩
      simp at hit
    · rintro ⟨hu, hq⟩
      exact absurd ⟨hu, (tolerance_q_iff _ _).mp hq⟩ hc

/-- Witness for C7 at the accepted concrete line. -/
theorem item4_tolerance_witness :
    ∃ it, item4g "Kopi".data "2".data "1000".data "2100".data = some (some it) :=
  (item4_tolerance.1 "Kopi".data "2".data "1000".data "2100".data 1000 2100 rfl rfl).mpr
    ⟨by decide, (tolerance_q_iff _ _).mpr (by decide)⟩

/-- Claim C8 (counterexample): on "TOTAL 12 RP 2000" the first total
pattern that matches captures "12" (fewer than 3 digits), yet the final
total is 2000, taken from the second pattern — so a nonzero total need not
come from a line's *first matching* pattern. -/
theorem total_first_pattern_counterexample :
    (smart_parse_receipt "TOTAL 12 RP 2000" "1970-01-01").total = 2000 ∧
    firstTotalGroup total_patterns "TOTAL 12 RP 2000".data = some "12".data ∧
    (digitsOnly "12".data).length < 3 := by
  exact ⟨by decide, by decide, by decide⟩

/-- Any value produced by the per-line total scan comes from some pattern
in the list whose match's digit-only extraction has at least 3 digits. -/
theorem totalLineScan_spec (line : List Char) (v : Nat) :
    ∀ ps : List RE, totalLineScan ps line = some v →
      ∃ p ∈ ps, ∃ caps, reSearch p line = some caps ∧
        3 ≤ (digitsOnly (getGroup caps 1)).length ∧
        v = toNatDigits (digitsOnly (getGroup caps 1)) := by
  intro ps
  induction ps with
  | nil => intro h; simp [totalLineScan] at h
  | cons p ps ih =>
    intro h
    rw [totalLineScan] at h
    cases hm : reSearch p line with
    | none =>
      rw [hm] at h
      obtain ⟨q, hq, rest⟩ := ih h
      exact ⟨q, List.mem_cons_of_mem _ hq, rest⟩
    | some caps =>
      simp only [hm] at h
      by_cases hl : 3 ≤ (digitsOnly (getGroup caps 1)).length
      · rw [if_pos hl] at h
        exact ⟨p, List.mem_cons_self _ _, caps, hm, hl, (Option.some.inj h).symm⟩
      · rw [if_neg hl] at h
        obtain ⟨q, hq, rest⟩ := ih h
        exact ⟨q, List.mem_cons_of_mem _ hq, rest⟩

/-- The outer total loop either returns 0, passes its accumulator through,
or returns a value accepted by some line's pattern scan. -/
theorem totalScan_mem (lines : List (List Char)) :
    ∀ t, totalScan lines t = 0 ∨ totalScan lines t = t ∨
      ∃ line ∈ lines, totalLineScan total_patterns line = some (totalScan lines t) := by
  induction lines with
  | nil => intro t; right; left; rfl
  | cons line rest ih =>
    intro t
    rw [totalScan]
    cases hm : totalLineScan total_patterns line with
    | none =>
      simp only
      by_cases h0 : 0 < t
      · rw [if_pos h0]; right; left; rfl
      · rw [if_neg h0]
        rcases ih t with h | h | ⟨l, hl, hv⟩
        · left; exact h
        · right; left; exact h
        · right; right; exact ⟨l, List.mem_cons_of_mem _ hl, hv⟩
    | some v =>
      simp only
      by_cases h0 : 0 < v
      · rw [if_pos h0]; right; right; exact ⟨line, List.mem_cons_self _ _, hm⟩
      · rw [if_neg h0]
        have hv0 : v = 0 := Nat.eq_zero_of_not_pos h0
        rcases ih v with h | h | ⟨l, hl, hv⟩
        · left; exact h
        · left; rw [h, hv0]
        · right; right; exact ⟨l, List.mem_cons_of_mem _ hl, hv⟩

/-- Claim C8 (amended): a nonzero extracted total is always the integer
value of a digit-only string with at least 3 digits captured by *some*
total pattern on some line (a pattern match whose extraction has fewer
than 3 digits is never accepted, and later patterns are still tried);
the line "Qty 12" leaves the total at 0. -/
theorem total_three_digit_amended (text today : String) :
    ((smart_parse_receipt text today).total ≠ 0 →
      ∃ line ∈ splitLines text.data, ∃ p ∈ total_patterns, ∃ caps,
        reSearch p line = some caps ∧
        3 ≤ (digitsOnly (getGroup caps 1)).length ∧
        (smart_parse_receipt text today).total = toNatDigits (digitsOnly (getGroup caps 1))) ∧
    (smart_parse_receipt "Qty 12" today).total = 0 := by
  constructor
  · intro h
    have htot : (smart_parse_receipt text today).total = totalScan (splitLines text.data) 0 := rfl
    rw [htot] at h ⊢
    rcases totalScan_mem (splitLines text.data) 0 with h0 | h0 | ⟨line, hmem, hline⟩
    · exact absurd h0 h
    · exact absurd h0 h
    · obtain ⟨p, hp, caps, hcaps, hlen, hv⟩ := totalLineScan_spec line _ total_patterns hline
      exact ⟨line, hmem, p, hp, caps, hcaps, hlen, hv⟩
  · rfl

/-- Witness for the amended C8 on "TOTAL RP 5000" (total 5000). -/
theorem total_three_digit_amended_witness :
    ∃ line ∈ splitLines ("TOTAL RP 5000" : String).data, ∃ p ∈ total_patterns, ∃ caps,
      reSearch p line = some caps ∧
      3 ≤ (digitsOnly (getGroup caps 1)).length ∧
      (smart_parse_receipt "TOTAL RP 5000" "1970-01-01").total =
        toNatDigits (digitsOnly (getGroup caps 1)) :=
  (total_three_digit_amended "TOTAL RP 5000" "1970-01-01").1 (by decide)

/-- Claim C9 (counterexample): the line "X 0 500 0" is accepted by the
4-group grammar with quantity 0 (the tolerance check degenerates when the
line total is 0), survives the final filter (positive price, non-empty
name), and so the result contains an item with quantity 0. -/
theorem quantity_zero_counterexample :
    extract_items_smart ["X 0 500 0".data] = [⟨"X", 0, 500⟩] ∧
    ¬ (∀ it ∈ extract_items_smart ["X 0 500 0".data], 1 ≤ it.quantity) := by
  exact ⟨by decide, by decide⟩

/-- Claim C9 (amended): items produced by the 3-group branch have positive
quantity, items of the 2-group branch have quantity exactly 1, and items of
the 4-group branch have positive quantity whenever the parsed line total is
positive — only a 4-group line with line total 0 can yield quantity 0. -/
theorem item_quantity_amended :
    (∀ g1 g2 g3 it, item3g g1 g2 g3 = some (some it) → 1 ≤ it.quantity) ∧
    (∀ g1 g2 it, item2g g1 g2 = some (some it) → it.quantity = 1) ∧
    (∀ g1 g2 g3 g4 t it, parseAmount g4 = some t → 0 < t →
      item4g g1 g2 g3 g4 = some (some it) → 1 ≤ it.quantity) := by
  refine ⟨?_, ?_, ?_⟩
  · intro g1 g2 g3 it h
    rw [item3g] at h
    cases h3 : parseAmount g3 with
    | none => rw [h3] at h; simp at h
    | some price =>
      simp only [h3] at h
      split_ifs at h with hc
      · cases Option.some.inj (Option.some.inj h)
        exact hc.2
      · simp at h
  · intro g1 g2 it h
    rw [item2g] at h
    cases h2 : parseAmount g2 with
    | none => rw [h2] at h; simp at h
    | some price =>
      simp only [h2] at h
      split_ifs at h with hc
      · cases Option.some.inj (Option.some.inj h)
        rfl
      · simp at h
  · intro g1 g2 g3 g4 t it h4 ht h
    rw [item4g] at h
    cases h3 : parseAmount g3 with
    | none => rw [h3, h4] at h; simp at h
    | some u =>
      simp only [h3, h4] at h
      split_ifs at h with hc
      · cases Option.some.inj (Option.some.inj h)
        show 1 ≤ toNatDigits g2
        by_contra hq
        have hq0 : toNatDigits g2 = 0 := by omega
        rw [hq0] at hc
        simp only [Nat.cast_zero, zero_mul, zero_sub, Int.natAbs_neg, Int.natAbs_ofNat] at hc
        omega
      · simp at h

/-- Witness for the amended C9: a 4-group line with positive line total. -/
theorem item_quantity_amended_witness :
    1 ≤ (LineItem.mk "X" 1 500).quantity :=
  item_quantity_amended.2.2 "X".data "1".data "500".data "500".data 500 ⟨"X", 1, 500⟩
    rfl (by decide) (by decide)
